import Mathlib

set_option maxHeartbeats 1000000

/-
Shallow embedding of the query/ranking engine of zotero-cli
(src/zotero/__init__.py, class ZoteroCLI).  Each definition carries a
reference to the source lines it translates.
-/

/-- Python exception kinds that can escape the modelled code paths.
    `keyError`, `nameError`, `indexError`, `attrError` are the Python
    exception classes KeyError, NameError, IndexError, AttributeError;
    the remaining variants are ValueError raises distinguished by their
    message (`badLimit` = "Bad limit number", `badFilter` = "Bad filter",
    `emptyRegex` = "Regex ... is empty", `valueError` = a bare ValueError
    such as a tuple-unpacking failure, `badTag` / `badFieldName` carry the
    list of valid values that the accompanying logger warning prints). -/
inductive ZErr where
  | keyError
  | valueError
  | nameError
  | indexError
  | attrError
  | badLimit
  | badFilter
  | emptyRegex
  | badTag (tag : String) (validListed : List String)
  | badFieldName (field : String) (validListed : List String)
deriving DecidableEq, Repr

/-- Decidable equality for Except results, used to evaluate the model on
    concrete inputs. -/
instance exceptDecEq {ε α : Type} [DecidableEq ε] [DecidableEq α] :
    DecidableEq (Except ε α) := fun x y =>
  match x, y with
  | .ok a, .ok b =>
    if h : a = b then .isTrue (by rw [h])
    else .isFalse (by intro he; cases he; exact h rfl)
  | .error a, .error b =>
    if h : a = b then .isTrue (by rw [h])
    else .isFalse (by intro he; cases he; exact h rfl)
  | .ok _, .error _ => .isFalse (by intro he; cases he)
  | .error _, .ok _ => .isFalse (by intro he; cases he)

/-
String helpers.  The model re-implements the handful of Python string
operations it needs structurally over the character list, with Python's
semantics (`str.split`, `str.strip`, `str.lower`, `str.isdigit`,
`str.join`, prefix tests), so that every definition evaluates by kernel
reduction on concrete inputs.
-/

/-- Characters matched by Python `\s` (and stripped by `str.strip()`). -/
def isPySpace (c : Char) : Bool :=
  c = ' ' ∨ c = '\t' ∨ c = '\n' ∨ c = '\r' ∨ c = '\x0b' ∨ c = '\x0c'

def splitCharAux (c : Char) : List Char → List Char → List String
  | [], acc => [String.mk acc.reverse]
  | x :: xs, acc =>
    if x = c then String.mk acc.reverse :: splitCharAux c xs []
    else splitCharAux c xs (x :: acc)

/-- Python `s.split(c)` for a one-character separator (every separator
    used by the source is one character: ":", "/", "."). -/
def pySplitChar (c : Char) (s : String) : List String := splitCharAux c s.data []

/-- Python `sep.join(parts)`. -/
def intercalateStr (sep : String) : List String → String
  | [] => ""
  | [x] => x
  | x :: xs => x ++ sep ++ intercalateStr sep xs

/-- Python `s.split(c, 1)`: split at the first separator occurrence only. -/
def pySplitOnceChar (c : Char) (s : String) : List String :=
  match pySplitChar c s with
  | [] => [s]
  | [x] => [x]
  | x :: rest => [x, intercalateStr (String.mk [c]) rest]

/-- Python `s.strip()`. -/
def pyStrip (s : String) : String :=
  String.mk (((s.data.dropWhile isPySpace).reverse.dropWhile isPySpace).reverse)

/-- Python `s.lower()`. -/
def pyLower (s : String) : String := String.mk (s.data.map Char.toLower)

def beginsList : List Char → List Char → Bool
  | [], _ => true
  | _ :: _, [] => false
  | x :: xs, y :: ys => x = y && beginsList xs ys

/-- Python `s.startswith(p)`. -/
def beginsWith (p s : String) : Bool := beginsList p.data s.data

/-- Python `s.endswith(p)`. -/
def endsWithStr (p s : String) : Bool := beginsList p.data.reverse s.data.reverse

/-- `s[n:]` on the character level. -/
def strDropN (s : String) (n : Nat) : String := String.mk (s.data.drop n)

/-- The numeric value of a digit string. -/
def natOfDigits (cs : List Char) : Nat :=
  cs.foldl (fun n c => 10 * n + (c.toNat - 48)) 0

/-- Python `int(s)` guarded by `s.isdigit()`: defined exactly when the
    string is non-empty and all digits. -/
def pyToNatQ (s : String) : Option Nat :=
  if s.data ≠ [] ∧ s.data.all Char.isDigit then some (natOfDigits s.data) else none

/-- A parsed datetime, abstracted to its calendar year plus a stamp that
    carries the total order used by datetime comparisons (`timestamp()`
    and direct datetime comparison order dates identically). -/
structure PDate where
  year : Int
  stamp : Int
deriving DecidableEq, Repr

/-- The sentinel datetime `datetime.strptime("1900-01-01", "%Y-%m-%d")`. -/
def date1900 : PDate := ⟨1900, 0⟩

/-- ZoteroCLI.date (lines 845-857): the empty string yields the sentinel
    1900-01-01; otherwise the external parser `ts.dateparse` (modelled by
    the parameter `dp`) is consulted.  On a parse failure the code reaches
    `self.logger.warning(msg)` inside a `@staticmethod`, where the name
    `self` is unbound, so Python raises NameError before the
    `return datetime.strptime("1900-01-01", ...)` line is reached. -/
def zcliDate (dp : String → Option PDate) (s : String) : Except ZErr PDate :=
  if s = "" then .ok date1900
  else
    match dp s with
    | some d => .ok d
    | none => .error .nameError

/-- Derivation of the `year` field in ZoteroCLI._filter (lines 436-438):
    `d['year'] = ZoteroCLI.date(dt, i).year if dt else 1900`, where `dt`
    is falsy when the raw date field is absent or the empty string. -/
def deriveYear (dp : String → Option PDate) (dt : Option String) : Except ZErr Int :=
  match dt with
  | none => .ok 1900
  | some s => if s = "" then .ok 1900 else (zcliDate dp s).map PDate.year

/-- A cached object as held in the Object Index `self.__objects`:
    `name` is meaningful for collection objects, `date` (an absent field
    modelled as `none`) and `collections` (raw collection keys) for
    items. -/
structure ZObj where
  name : String
  date : Option String
  collections : List String
deriving DecidableEq, Repr

/-- `link.split("/")[-1]`: the last slash-separated segment. -/
def lastSeg (l : String) : String := (pySplitChar '/' l).getLastD l

/-- Lookup in the Object Index `self.__objects`. -/
def lookupObj (O : List (String × ZObj)) (k : String) : Option ZObj := O.lookup k

/-- Compiled filter predicates, as built in ZoteroCLI._filter
    (lines 290-334).  The Python code stores plain tuples of arity 4
    (numeric, date and rank comparisons: negate, operator, extractor,
    operand), arity 3 (tags membership: negate, lambda, value; and regex
    search: negate, compiled regex, extractor) or arity 2 (emptiness
    test: negate, lambda); the arity is sniffed at the evaluation sites,
    which claim C10 depends on.  The date comparison operand
    `ZoteroCLI.date(v)` is evaluated at construction time, so it is
    stored parsed. -/
inductive Filt where
  | numCmp (neg : Bool) (op : String) (v : Int)
  | dateCmp (neg : Bool) (op : String) (v : PDate)
  | rankCmp (neg : Bool) (op : String) (v : ℚ)
  | tagsTest (neg : Bool) (value : String)
  | emptiness (neg : Bool) (isYear : Bool)
  | rxSearch (neg : Bool) (pattern : String)
deriving DecidableEq, Repr

/-- The negation flag (first tuple slot) of a compiled filter. -/
def filtNeg : Filt → Bool
  | .numCmp n _ _ => n
  | .dateCmp n _ _ => n
  | .rankCmp n _ _ => n
  | .tagsTest n _ => n
  | .emptiness n _ => n
  | .rxSearch n _ => n

/-- `", ".join(self.__objects[x]['data']['name'] for x in k['data']['collections'])`
    (line 382): resolving any collection key can raise KeyError, which the
    enclosing handler of the citations walk catches. -/
def collNames (O : List (String × ZObj)) : List String → Except ZErr (List String)
  | [] => .ok []
  | x :: xs =>
    match lookupObj O x with
    | none => .error .keyError
    | some o => (collNames O xs).map (fun ns => o.name :: ns)

def joinedCollNames (O : List (String × ZObj)) (ks : List String) : Except ZErr String :=
  (collNames O ks).map (intercalateStr ", ")

/-- The collections gate inside the citations/references computation
    (lines 379-384): `for n, regex, _ in _filters['collections']` unpacks
    every compiled predicate as a 3-tuple; a 2-tuple (emptiness) or
    4-tuple (comparison) raises ValueError, and the 3-tuple built for a
    tags filter puts a lambda where the regex is expected, so
    `regex.search` raises AttributeError.  For a genuine regex predicate
    the joined collection names of the related item are searched and the
    running conjunction `gb` is updated with `[b, not b][n]`.  `search`
    abstracts `re.Pattern.search` returning a truthy match. -/
def collGate (O : List (String × ZObj)) (search : String → String → Bool)
    (kcols : List String) : List Filt → Bool → Except ZErr Bool
  | [], gb => .ok gb
  | ft :: fts, gb =>
    match ft with
    | .rxSearch n pat =>
      match joinedCollNames O kcols with
      | .error e => .error e
      | .ok j =>
        let b := search pat j
        collGate O search kcols fts (gb && (if n then !b else b))
    | .tagsTest _ _ => .error .attrError
    | _ => .error .valueError

/-- One relation link of the citations/references walk (lines 377-390).
    Result: `.ok none` means a KeyError was raised (unresolvable relation
    key, missing date field, or unresolvable collection key of the
    related item) and is about to be caught by the enclosing handler;
    `.ok (some (c, r))` carries the updated counters; `.error` is an
    exception that escapes the handler (ValueError / AttributeError from
    the gate, NameError from date parsing). -/
def citLink (O : List (String × ZObj)) (dp : String → Option PDate)
    (search : String → String → Bool) (cf : Option (List Filt))
    (iRawDate : Option String) (l : String) (c r : Nat) :
    Except ZErr (Option (Nat × Nat)) :=
  match lookupObj O (lastSeg l) with
  | none => .ok none
  | some k =>
    let gres : Except ZErr Bool :=
      match cf with
      | none => .ok true
      | some fts => collGate O search k.collections fts true
    match gres with
    | .error .keyError => .ok none
    | .error e => .error e
    | .ok gb =>
      if !gb then .ok (some (c, r))
      else
        match k.date with
        | none => .ok none
        | some kds =>
          match zcliDate dp kds with
          | .error e => .error e
          | .ok kd =>
            match iRawDate with
            | none => .ok none
            | some ids =>
              match zcliDate dp ids with
              | .error e => .error e
              | .ok idt =>
                let c1 := if idt.stamp < kd.stamp then c + 1 else c
                let r1 := if kd.stamp ≤ idt.stamp then r + 1 else r
                .ok (some (c1, r1))

/-- The citations/references walk (ZoteroCLI._filter lines 371-394).
    The whole loop over the relation links sits in a `try` whose handler
    catches KeyError only and keeps the counts accumulated so far;
    ValueError (claim C10) and NameError (claim C3) propagate. -/
def citRefLoop (O : List (String × ZObj)) (dp : String → Option PDate)
    (search : String → String → Bool) (cf : Option (List Filt))
    (iRawDate : Option String) : List String → Nat → Nat → Except ZErr (Nat × Nat)
  | [], c, r => .ok (c, r)
  | l :: ls, c, r =>
    match citLink O dp search cf iRawDate l c r with
    | .error e => .error e
    | .ok none => .ok (c, r)
    | .ok (some (c1, r1)) => citRefLoop O dp search cf iRawDate ls c1 r1

/-- The `citations` / `references` pair for an item with the given raw
    date and relation links (`d['citations'], d['references']`). -/
def citRef (O : List (String × ZObj)) (dp : String → Option PDate)
    (search : String → String → Bool) (cf : Option (List Filt))
    (iRawDate : Option String) (links : List String) : Except ZErr (Nat × Nat) :=
  citRefLoop O dp search cf iRawDate links 0 0

/-- The INTEGER_FIELDS constant (lines 41-42). -/
def INTEGER_FIELDS : List String :=
  ["callNumber", "citations", "numAttachments", "numAuthors", "numCreators", "numEditors",
   "numNotes", "numAnnotations", "numPages", "rank", "references", "year", "zscc"]

/-- The FLOAT_FIELDS constant (line 40). -/
def FLOAT_FIELDS : List String := []

/-- Match of `^(|<|>|<=|>=|==)(\d+)$` (line 302): an optional comparison
    operator followed by a non-empty digit string.  The ordered regex
    alternation with backtracking admits exactly one decomposition, since
    the remainder after a one-character operator prefix of a two-character
    operator is never all digits. -/
def parseIntCmp (r : String) : Option (String × Int) :=
  let tryOp : String → Option (String × Int) := fun op =>
    if beginsWith op r then
      match pyToNatQ (strDropN r op.data.length) with
      | some n => some (op, (n : Int))
      | none => none
    else none
  ((((((tryOp "<=").orElse fun _ => tryOp ">=").orElse fun _ => tryOp "==").orElse
      fun _ => tryOp "<").orElse fun _ => tryOp ">").orElse fun _ => tryOp "")

/-- Match of `^(<|>|<=|>=|==)([^=]*)$` (line 311): a mandatory comparison
    operator followed by any text that contains no `=`. -/
def parseDateCmp (r : String) : Option (String × String) :=
  let tryOp : String → Option (String × String) := fun op =>
    if beginsWith op r then
      let rest := strDropN r op.data.length
      if rest.data.all (fun c => c ≠ '=') then some (op, rest) else none
    else none
  (((((tryOp "<=").orElse fun _ => tryOp ">=").orElse fun _ => tryOp "==").orElse
      fun _ => tryOp "<").orElse fun _ => tryOp ">")

/-- A decimal literal `\d+|\d*\.\d+` as a rational. -/
def parseDecimal (s : String) : Option ℚ :=
  match pySplitOnceChar '.' s with
  | [a] => (pyToNatQ a).map (fun n => (n : ℚ))
  | [a, b] =>
    if a.data.all Char.isDigit then
      match pyToNatQ b with
      | some nb =>
        let na := (pyToNatQ a).getD 0
        some ((na : ℚ) + (nb : ℚ) / ((10 : ℚ) ^ b.data.length))
      | none => none
    else none
  | _ => none

/-- Match of `^(<|>|<=|>=|==)(\d+|\d*\.\d+)$` (line 315). -/
def parseRankCmp (r : String) : Option (String × ℚ) :=
  let tryOp : String → Option (String × ℚ) := fun op =>
    if beginsWith op r then
      match parseDecimal (strDropN r op.data.length) with
      | some q => some (op, q)
      | none => none
    else none
  (((((tryOp "<=").orElse fun _ => tryOp ">=").orElse fun _ => tryOp "==").orElse
      fun _ => tryOp "<").orElse fun _ => tryOp ">")

/-- Stable insertion of a string into a list sorted by a key function
    (models Python `sorted(..., key=...)` for the warning lists). -/
def insertSorted (key : String → String) (x : String) : List String → List String
  | [] => [x]
  | y :: ys => if key x ≤ key y then x :: y :: ys else y :: insertSorted key x ys

/-- `sorted(l, key=ZoteroCLI.sort)` for plain string values, whose
    canonical key is the lowercased string (lines 881-882). -/
def sortedLower (l : List String) : List String :=
  l.foldr (insertSorted pyLower) []

/-- One step of the filter-construction loop in ZoteroCLI._filter
    (lines 290-334): parse `[~]field:regex` and build the predicate
    tuple.  Returns the field name, the compiled predicate and the
    stripped regex text (the loop variable `regex`, which the field
    validation at line 338 still reads after the loop ends).  A date
    comparison operand is parsed at construction time via
    `ZoteroCLI.date(v)`, so an unparsable operand raises here. -/
def compileOne (dp : String → Option PDate) (validTags : List String) (f : String) :
    Except ZErr (String × Filt × String) :=
  match pySplitOnceChar ':' f with
  | [field0, regex0] =>
    let field1 := pyStrip field0
    let regex := pyStrip regex0
    if regex = "" then .error .emptyRegex
    else
      match field1.data with
      | [] => .error .indexError
      | c :: rest =>
        let neg := c = '~'
        let field := if neg then String.mk rest else field1
        if (field ∈ INTEGER_FIELDS ∧ field ≠ "rank") ∧ (parseIntCmp regex).isSome then
          match parseIntCmp regex with
          | some (op, v) =>
            let op1 := if op = "" then "==" else op
            .ok (field, .numCmp neg op1 v, regex)
          | none => .error .valueError
        else if beginsWith "date" field then
          if regex = "-" ∨ regex = "<empty>" then
            match zcliDate dp "" with
            | .error e => .error e
            | .ok d => .ok (field, .dateCmp neg "==" d, regex)
          else
            match parseDateCmp regex with
            | some (op, v) =>
              match zcliDate dp (pyStrip v) with
              | .error e => .error e
              | .ok d => .ok (field, .dateCmp neg op d, regex)
            | none => .error .attrError
        else if field = "rank" then
          match parseRankCmp regex with
          | some (op, v) => .ok (field, .rankCmp neg op v, regex)
          | none => .error .attrError
        else if field = "tags" then
          if regex ∉ validTags ∧ regex ∉ ["-", "<empty>"] then
            .error (.badTag regex (sortedLower validTags))
          else .ok (field, .tagsTest neg regex, regex)
        else if regex = "-" ∨ regex = "<empty>" then
          .ok (field, .emptiness neg (field = "year"), regex)
        else .ok (field, .rxSearch neg regex, regex)
  | _ => .error .badFilter

/-- `_filters.setdefault(field, []); _filters[field].append(filt)`:
    insertion-ordered grouping of predicates by field. -/
def addFilt (acc : List (String × List Filt)) (field : String) (ft : Filt) :
    List (String × List Filt) :=
  match acc with
  | [] => [(field, [ft])]
  | (g, fs) :: rest =>
    if g = field then (g, fs ++ [ft]) :: rest else (g, fs) :: addFilt rest field ft

def compileFiltersGo (dp : String → Option PDate) (validTags : List String)
    (acc : List (String × List Filt)) (lastR : Option String) :
    List String → Except ZErr (List (String × List Filt) × Option String)
  | [] => .ok (acc, lastR)
  | f :: fs =>
    match compileOne dp validTags f with
    | .error e => .error e
    | .ok (field, ft, r) => compileFiltersGo dp validTags (addFilt acc field ft) (some r) fs

/-- The filter-construction loop (lines 289-334): the compiled per-field
    predicate lists plus the final value of the loop variable `regex`
    (`none` when no filter expression was given, in which case the name
    is unbound and reading it at line 338 raises NameError). -/
def compileFilters (dp : String → Option PDate) (validTags : List String)
    (exprs : List String) : Except ZErr (List (String × List Filt) × Option String) :=
  compileFiltersGo dp validTags [] none exprs

/-- Field validation (lines 336-341): every requested or filtered field
    must be in the field catalog, but the check is guarded by
    `regex != "-"`, where `regex` is the leftover loop variable of the
    filter-construction loop — so when the LAST parsed filter expression
    has the value part `-`, unknown field names are silently accepted.
    On failure, the logger warning lists the valid fields sorted by their
    canonical key and ValueError is raised. -/
def validateFields (validFields : List String) (lastRegex : Option String) :
    List String → Except ZErr Unit
  | [] => .ok ()
  | f :: fs =>
    if f ∈ validFields then validateFields validFields lastRegex fs
    else
      match lastRegex with
      | none => .error .nameError
      | some r =>
        if r = "-" then validateFields validFields lastRegex fs
        else .error (.badFieldName f (sortedLower validFields))

/-- Filter compilation followed by field validation, the entry phase of
    ZoteroCLI._filter (lines 289-341): `afields` is the requested field
    list concatenated with the filter dictionary keys. -/
def filterPhase (dp : String → Option PDate) (validFields validTags : List String)
    (fields exprs : List String) : Except ZErr (List (String × List Filt)) :=
  match compileFilters dp validTags exprs with
  | .error e => .error e
  | .ok (fl, lastR) =>
    match validateFields validFields lastR (fields ++ fl.map Prod.fst) with
    | .error e => .error e
    | .ok _ => .ok fl

/-- The per-predicate skip trigger of the item loop (line 453):
    `[not b, b][tfilter[0]]` — for a non-negated predicate the item is
    marked to be skipped when its truth value `b` is false, for a negated
    one when `b` is true.  `evalb` abstracts the computation of `b` from
    the predicate shape (lines 443-452). -/
def skipTrigger (evalb : String → Filt → Bool) (field : String) (ft : Filt) : Bool :=
  let b := evalb field ft
  if filtNeg ft then b else !b

/-- The `pass_item` flag after the nested predicate loops
    (lines 440-457): set as soon as any predicate of any field triggers a
    skip (both loops break once it is set). -/
def passItemSkip (evalb : String → Filt → Bool) (fl : List (String × List Filt)) : Bool :=
  fl.any fun p => p.2.any fun ft => skipTrigger evalb p.1 ft

/-- Line 458: the item is yielded when `pass_item` stayed false and the
    item is not ignore-marked (or force is set). -/
def itemYielded (evalb : String → Filt → Bool) (fl : List (String × List Filt))
    (ignoreMarked force : Bool) : Bool :=
  !passItemSkip evalb fl && (!ignoreMarked || force)

/-- The dash class `[\-–]` of the pages pattern (ASCII hyphen or
    en dash). -/
def isDash (c : Char) : Bool := c = '-' ∨ c = '–'

/-- Where `$` may match for `re.match` without MULTILINE: at the end of
    the string or just before one trailing newline. -/
def endOk (cs : List Char) : Bool := cs = [] ∨ cs = ['\n']

/-- The match of `(\d+)(?:\s*[\-–]+\s*(\d+))?$` against the pages
    value (line 416).  The greedy scan is deterministic because the
    digit, whitespace and dash character classes are pairwise disjoint:
    first the leading digits, then optionally whitespace, one or more
    dashes, whitespace and a second digit group, and finally `$`. -/
def pagesParse (p : String) : Option (Nat × Option Nat) :=
  let cs := p.data
  let d1 := cs.takeWhile Char.isDigit
  let rest := cs.dropWhile Char.isDigit
  if d1 = [] then none
  else
    let r1 := rest.dropWhile isPySpace
    let dsh := r1.takeWhile isDash
    let r2 := r1.dropWhile isDash
    let r3 := r2.dropWhile isPySpace
    let d2 := r3.takeWhile Char.isDigit
    let r4 := r3.dropWhile Char.isDigit
    if dsh ≠ [] ∧ d2 ≠ [] ∧ endOk r4 then some (natOfDigits d1, some (natOfDigits d2))
    else if endOk rest then some (natOfDigits d1, none)
    else none

/-- The numPages derivation (lines 414-422) on the selected pages string:
    `abs(int(s) - int(e or 0)) or -1` on a match (the missing second
    group defaults to 0, a zero difference becomes the sentinel -1), and
    the sentinel -1 with a logged warning on a failed match.  The Bool
    component records whether the warning was logged. -/
def numPagesOf (p : String) : Int × Bool :=
  match pagesParse p with
  | some (s, e) =>
    let a := ((s : Int) - ((e.getD 0 : Nat) : Int)).natAbs
    (if a = 0 then -1 else (a : Int), false)
  | none => (-1, true)

/-- Line 415: `i['data'].get('numPages', i['data'].get('pages')) or "0"` —
    the numPages field if present, else the pages field, with a falsy
    value (absent or empty) replaced by "0". -/
def pagesSource (np pg : Option String) : String :=
  let v :=
    match np with
    | some x => x
    | none =>
      match pg with
      | some y => y
      | none => ""
  if v = "" then "0" else v

/-- Success payload of ZoteroCLI._expand_limit: the numeric limit, the
    limiting field, the limiting direction and the age-damping flag. -/
abbrev LimitSpec := Option Nat × Option String × Bool × Bool

/-- Lines 280-282: `if not str(limit).isdigit() or int(limit) <= 0:
    raise ValueError("Bad limit number ...")`. -/
def checkLimitNum (limS : String) (lf : Option String) (lfd ag : Bool) :
    Except ZErr LimitSpec :=
  match pyToNatQ limS with
  | none => .error .badLimit
  | some n => if n = 0 then .error .badLimit else .ok (some n, lf, lfd, ag)

/-- ZoteroCLI._expand_limit (lines 260-283).  `limit.split(":")` must
    produce exactly two parts, otherwise the tuple unpacking raises
    ValueError which the handler swallows (leaving the limit field at the
    sort default and the whole string as the limit number).  A leading
    `<`/`>` of the stripped field sets the limiting direction; the exact
    token `rank*` maps to field `rank` with age damping disabled; note
    that `rank^K` is NOT special-cased here.  An empty field part makes
    `lfield[0]` raise IndexError, which the ValueError-only handler does
    not catch. -/
def expandLimit (limit : Option String) (sortf : Option String) (desc age : Bool) :
    Except ZErr LimitSpec :=
  match limit with
  | none => .ok (none, sortf, desc, age)
  | some s =>
    match pySplitChar ':' s with
    | [a, b] =>
      let a1 := pyStrip a
      match a1.data with
      | [] => .error .indexError
      | c :: rest =>
        let lfdesc := if c = '<' ∨ c = '>' then c = '>' else desc
        let a2 := if c = '<' ∨ c = '>' then String.mk rest else a1
        let age2 := if a2 = "rank*" then false else age
        let a3 := if a2 = "rank*" then "rank" else a2
        checkLimitNum b (some a3) lfdesc age2
    | _ => checkLimitNum s sortf desc age

/-- Match of `rank(\*|\^[1-9])$` against one requested field
    (line 489): `some none` for `rank*`, `some (some k)` for `rank^k`. -/
def rankTok (f : String) : Option (Option Nat) :=
  if f = "rank*" then some none
  else
    match f.data with
    | ['r', 'a', 'n', 'k', '^', d] =>
      if '1' ≤ d ∧ d ≤ '9' then some (some (d.toNat - 48)) else none
    | _ => none

/-- The rank-token scan over the requested FIELDS (ZoteroCLI._items
    lines 486-499): the first field matching `rank(\*|\^[1-9])$` disables
    age damping (`rank*`) or sets the damping order (`rank^K`, default
    order 3), and is replaced in place by `rank`.
    Returns (age, order, fields). -/
def rankTokenScan : List String → Bool × Nat × List String
  | [] => (true, 3, [])
  | f :: fs =>
    match rankTok f with
    | some none => (false, 3, "rank" :: fs)
    | some (some k) => (true, k, "rank" :: fs)
    | none =>
      match rankTokenScan fs with
      | (a, o, r) => (a, o, f :: r)

/-- A Python scalar value as it reaches the formatter and the canonical
    sort key: an int, a string, or None. -/
inductive PyVal where
  | i (n : Int)
  | s (st : String)
  | vnone
deriving DecidableEq, Repr

/-- Python `str(value)` on the modelled scalars. -/
def pyStr : PyVal → String
  | .i n => toString n
  | .s st => st
  | .vnone => "None"

/-- ZoteroCLI._format_value (lines 461-479) restricted to scalar values
    on fields other than tags / itemType / rank (the list, mapping and
    those three string-transform branches act on value shapes and field
    names that no claim below feeds in): the year sentinel 1900 formats
    as `-`, any other int formats as its decimal string unless negative
    (the sentinel convention for integer fields), and everything else is
    string-cast. -/
def formatScalar (value : PyVal) (field : String) : String :=
  if field = "year" then
    match value with
    | .i n => if n = 1900 then "-" else toString n
    | _ => pyStr value
  else
    match value with
    | .i n => if n < 0 then "-" else toString n
    | _ => pyStr value

/-- A canonical comparison key as returned by ZoteroCLI.sort: a float
    for date-like and numeric fields, a string otherwise. -/
inductive SKey where
  | num (q : ℚ)
  | str (s : String)
deriving DecidableEq, Repr

/-- ASCII `string.punctuation` (codes 33-47, 58-64, 91-96, 123-126). -/
def isPyPunct (c : Char) : Bool :=
  (33 ≤ c.toNat ∧ c.toNat ≤ 47) ∨ (58 ≤ c.toNat ∧ c.toNat ≤ 64) ∨
  (91 ≤ c.toNat ∧ c.toNat ≤ 96) ∨ (123 ≤ c.toNat ∧ c.toNat ≤ 126)

/-- Python `s.split(maxsplit=1)`: skip leading whitespace, take the first
    token, then the remainder after the separating whitespace run (kept
    verbatim, dropped when empty). -/
def pySplitMax1 (s : String) : List String :=
  let cs := s.data.dropWhile isPySpace
  match cs with
  | [] => []
  | _ =>
    let tok := cs.takeWhile (fun c => !isPySpace c)
    let rest := (cs.dropWhile (fun c => !isPySpace c)).dropWhile isPySpace
    match rest with
    | [] => [String.mk tok]
    | _ => [String.mk tok, String.mk rest]

/-- The title canonical key (lines 876-880): lowercase, drop a leading
    article a/an/the, left-strip whitespace, rewrite a leading `@` to `a`
    and then a leading `$` to `s`, and left-strip punctuation. -/
def titleKey (value : PyVal) : String :=
  let s0 := pyLower (pyStr value)
  let parts := pySplitMax1 s0
  let s1 :=
    match parts with
    | [] => s0
    | [t] => if t = "a" ∨ t = "an" ∨ t = "the" then t else s0
    | [t, r] => if t = "a" ∨ t = "an" ∨ t = "the" then r else s0
    | _ => s0
  let s2 := s1.data.dropWhile isPySpace
  let s3 :=
    match s2 with
    | '@' :: rest => 'a' :: rest
    | other => other
  let s4 :=
    match s3 with
    | '$' :: rest => 's' :: rest
    | other => other
  String.mk (s4.dropWhile isPyPunct)

/-- ZoteroCLI.sort (lines 864-882), the canonical comparison key.
    Date-like fields parse the value (leading dashes stripped) and key on
    the timestamp; numeric fields key on `float(-1 if value in
    ["", "-", None] else value)` — a conversion failure lands in a bare
    `except:` whose handler dereferences the unbound `self` and so raises
    NameError; `title` uses the munged title key; anything else keys on
    the lowercased string.  `pf` abstracts Python `float()` on strings
    (`none` = ValueError). -/
def zsortKey (dp : String → Option PDate) (pf : String → Option ℚ)
    (value : PyVal) (field : String) : Except ZErr SKey :=
  if beginsWith "date" field ∨ endsWithStr "Date" field then
    match value with
    | .s st =>
      (zcliDate dp (String.mk (st.data.dropWhile (fun c => c = '-')))).map
        (fun d => SKey.num (d.stamp : ℚ))
    | _ => .error .attrError
  else if field ∈ FLOAT_FIELDS ∨ field ∈ INTEGER_FIELDS then
    if value = .s "" ∨ value = .s "-" ∨ value = .vnone then .ok (SKey.num (-1))
    else
      match value with
      | .i n => .ok (SKey.num (n : ℚ))
      | .s st =>
        match pf st with
        | some q => .ok (SKey.num q)
        | none => .error .nameError
      | .vnone => .ok (SKey.num (-1))
  else if field = "title" then .ok (SKey.str (titleKey value))
  else .ok (SKey.str (pyLower (pyStr value)))

/-- A candidate item as seen by the ranking engine (lines 522-554): its
    key, derived year, parsed date stamp, outgoing relation links and
    derived references count.  Dates are modelled already parsed; the
    unparsable-date crash inside the engine is claim C3's concern. -/
structure RItem where
  key : String
  year : Int
  stamp : Int
  links : List String
  refs : Int
deriving DecidableEq, Repr

/-- The live score vector: the candidate items in dict order, each with
    its current score. -/
abbrev RState := List (RItem × ℚ)

/-- In-place update of the score at position j (`self.ranks[k1] = v`). -/
def setVal : RState → Nat → ℚ → RState
  | [], _, _ => []
  | p :: ps, 0, v => (p.1, v) :: ps
  | p :: ps, Nat.succ j, v => p :: setVal ps j v

/-- Read of the score at position j. -/
def getVal (l : RState) (j : Nat) : ℚ :=
  match l[j]? with
  | some p => p.2
  | none => 0

/-- `self.ranks.get(k2, 0.)` and `k2 in items.keys()`: lookup of a
    candidate entry by key in the live vector. -/
def findEntry (l : RState) (k : String) : Option (RItem × ℚ) :=
  l.find? (fun p => p.1.key == k)

/-- One relation link of the per-item rank update (lines 538-549): if the
    target is a candidate and the source's date is on-or-before the
    target's and the target has a positive references count, add
    `score[k2] / references[k2]` to the score at position j, reading the
    live, partially updated vector exactly as the Python dict is read. -/
def linkStep (it : RItem) (j : Nat) (l : RState) (t0 : String) : RState :=
  let t := lastSeg t0
  match findEntry l t with
  | none => l
  | some (k2, k2rank) =>
    if it.stamp ≤ k2.stamp then
      if 0 < k2.refs then setVal l j (getVal l j + k2rank / (k2.refs : ℚ)) else l
    else l

/-- The per-item step of one ranking pass (lines 529-549): an item with
    the sentinel year 1900 is skipped; otherwise its score is reset to 1
    if it has any in-candidate relation target (else 0) and every link
    contribution is added in order. -/
def updateAt (l0 : RState) (j : Nat) : RState :=
  match l0[j]? with
  | none => l0
  | some (it, _) =>
    if it.year = 1900 then l0
    else
      let base : ℚ := if it.links.any (fun t => (findEntry l0 (lastSeg t)).isSome) then 1 else 0
      it.links.foldl (linkStep it j) (setVal l0 j base)

/-- One full pass over all candidate items (`for k1 in self.ranks.keys()`). -/
def rankingPass (l : RState) : RState :=
  (List.range l.length).foldl updateAt l

/-- The convergence loop (lines 527-554): run at most n full passes,
    stopping as soon as a pass leaves the score vector unchanged
    (`tuple(self.ranks.values()) == prev`); also returns the number of
    passes executed. -/
def ranksLoop : Nat → RState → RState × Nat
  | 0, s => (s, 0)
  | Nat.succ n, s =>
    let s2 := rankingPass s
    if s2 = s then (s2, 1)
    else ((ranksLoop n s2).1, (ranksLoop n s2).2 + 1)

/-- The initial score vector (line 525): 1/N for items whose derived year
    exceeds the 1900 sentinel, 0 otherwise. -/
def initRanks (its : List RItem) : RState :=
  its.map (fun it => (it, if 1900 < it.year then (1 : ℚ) / (its.length : ℚ) else 0))

/-- The whole iteration (lines 527-554): at most N passes, N being the
    number of candidate items. -/
def computeRanks (its : List RItem) : RState × Nat :=
  ranksLoop its.length (initRanks its)

/-- Python `max(self.ranks.values())` (line 568): maximum of the scores
    (the dict is never empty at this point — the pipeline returns early
    when no item survives filtering). -/
def maxRank : List (String × ℚ) → ℚ
  | [] => 0
  | p :: ps => ps.foldl (fun m q => max m q.2) p.2

/-- The final normalization (line 569): every score divided by the
    maximum, or set to 0 when the maximum is zero
    (`v / max_rank if max_rank else 0.`). -/
def normalizeRanks (l : List (String × ℚ)) : List (String × ℚ) :=
  if maxRank l = 0 then l.map (fun p => (p.1, 0))
  else l.map (fun p => (p.1, p.2 / maxRank l))

/-- A small date parser standing in for `ts.dateparse` in concrete
    instances: knows three year-strings, rejects everything else. -/
def dpSimple : String → Option PDate := fun s =>
  if s = "2019" then some ⟨2019, 2019⟩
  else if s = "2020" then some ⟨2020, 2020⟩
  else if s = "2021" then some ⟨2021, 2021⟩
  else none

/-- A float parser that rejects every string (no concrete instance below
    feeds a numeric string to it). -/
def pfNone : String → Option ℚ := fun _ => none

/-- A regex search that never matches (no concrete instance below
    exercises a real pattern). -/
def searchNever : String → String → Bool := fun _ _ => false

/-- The Object Index of the concrete citation instances: two resolvable
    items dated 2021 and 2019, no collections. -/
def citObjects : List (String × ZObj) :=
  [("A", ⟨"", some "2021", []⟩), ("C", ⟨"", some "2019", []⟩)]

/-- A per-predicate evaluation for the concrete filter instances: the
    truth value is true exactly on field "a". -/
def evalbFieldA : String → Filt → Bool := fun fld _ => fld == "a"

/-- Two stacked non-negated predicates on distinct fields. -/
def stackedFilters : List (String × List Filt) :=
  [("a", [Filt.rxSearch false "p"]), ("b", [Filt.rxSearch false "q"])]

/-- Two candidate items with the sentinel year (rank iteration skips
    them, so the first pass is already a fixpoint). -/
def witnessItemA : RItem := ⟨"A", 1900, 0, [], 0⟩

def witnessItemB : RItem := ⟨"B", 1900, 0, [], 0⟩


/-
Supporting lemmas.
-/

theorem foldl_max_le_init (xs : List (String × ℚ)) (a : ℚ) :
    a ≤ xs.foldl (fun m q => max m q.2) a := by
  induction xs generalizing a with
  | nil => exact le_refl a
  | cons x xs ih =>
    simp only [List.foldl_cons]
    exact le_trans (le_max_left a x.2) (ih _)

theorem mem_le_foldl_max (xs : List (String × ℚ)) (a : ℚ) (p : String × ℚ)
    (hp : p ∈ xs) : p.2 ≤ xs.foldl (fun m q => max m q.2) a := by
  induction xs generalizing a with
  | nil => cases hp
  | cons x xs ih =>
    simp only [List.foldl_cons]
    rcases List.mem_cons.mp hp with h | h
    · subst h
      exact le_trans (le_max_right a p.2) (foldl_max_le_init xs _)
    · exact ih _ h

theorem foldl_max_attained (xs : List (String × ℚ)) (a : ℚ) :
    xs.foldl (fun m q => max m q.2) a = a ∨
      ∃ p ∈ xs, xs.foldl (fun m q => max m q.2) a = p.2 := by
  induction xs generalizing a with
  | nil => exact Or.inl rfl
  | cons x xs ih =>
    simp only [List.foldl_cons]
    rcases ih (max a x.2) with h | ⟨p, hp, he⟩
    · rcases max_choice a x.2 with hm | hm
      · exact Or.inl (by rw [h, hm])
      · exact Or.inr ⟨x, List.mem_cons_self x xs, by rw [h, hm]⟩
    · exact Or.inr ⟨p, List.mem_cons_of_mem x hp, he⟩

/-- Every score is bounded by the maximum (line 568). -/
theorem le_maxRank (l : List (String × ℚ)) (p : String × ℚ) (hp : p ∈ l) :
    p.2 ≤ maxRank l := by
  cases l with
  | nil => cases hp
  | cons q qs =>
    simp only [maxRank]
    rcases List.mem_cons.mp hp with h | h
    · subst h
      exact foldl_max_le_init qs _
    · exact mem_le_foldl_max qs _ _ h

/-- The maximum is attained by some entry. -/
theorem maxRank_attained (l : List (String × ℚ)) (h : l ≠ []) :
    ∃ p ∈ l, maxRank l = p.2 := by
  cases l with
  | nil => exact absurd rfl h
  | cons q qs =>
    simp only [maxRank]
    rcases foldl_max_attained qs q.2 with he | ⟨p, hp, he⟩
    · exact ⟨q, List.mem_cons_self q qs, he⟩
    · exact ⟨p, List.mem_cons_of_mem q hp, he⟩

theorem ranksLoop_count_le (n : Nat) (s : RState) : (ranksLoop n s).2 ≤ n := by
  induction n generalizing s with
  | zero => exact le_refl 0
  | succ n ih =>
    by_cases h : rankingPass s = s
    · simp only [ranksLoop, if_pos h]
      exact Nat.succ_le_succ (Nat.zero_le n)
    · simp only [ranksLoop, if_neg h]
      exact Nat.succ_le_succ (ih _)

theorem ranksLoop_result (n : Nat) (s : RState) :
    (ranksLoop n s).1 = rankingPass^[(ranksLoop n s).2] s := by
  induction n generalizing s with
  | zero => rfl
  | succ n ih =>
    by_cases h : rankingPass s = s
    · simp only [ranksLoop, if_pos h, Function.iterate_one]
    · simp only [ranksLoop, if_neg h]
      rw [ih (rankingPass s), Function.iterate_succ_apply]

theorem ranksLoop_early_fix (n : Nat) (s : RState) (h : (ranksLoop n s).2 < n) :
    rankingPass (ranksLoop n s).1 = (ranksLoop n s).1 := by
  induction n generalizing s with
  | zero => exact absurd h (Nat.not_lt_zero _)
  | succ n ih =>
    by_cases h0 : rankingPass s = s
    · simp only [ranksLoop, if_pos h0]
      rw [h0]
      exact h0
    · simp only [ranksLoop, if_neg h0]
      simp only [ranksLoop, if_neg h0] at h
      exact ih (rankingPass s) (Nat.lt_of_succ_lt_succ h)

theorem ranksLoop_no_early (n : Nat) (s : RState) (m : Nat)
    (h : m + 1 < (ranksLoop n s).2) :
    rankingPass^[m+1] s ≠ rankingPass^[m] s := by
  induction n generalizing s m with
  | zero => exact absurd h (by simp [ranksLoop])
  | succ n ih =>
    by_cases h0 : rankingPass s = s
    · simp only [ranksLoop, if_pos h0] at h
      exact absurd h (by omega)
    · simp only [ranksLoop, if_neg h0] at h
      cases m with
      | zero =>
        simpa only [Function.iterate_one, Function.iterate_zero, id] using h0
      | succ m =>
        rw [Function.iterate_succ_apply, Function.iterate_succ_apply]
        exact ih (rankingPass s) m (by omega)

theorem getElemQ_mem : ∀ (l : RState) (j : Nat) (p : RItem × ℚ), l[j]? = some p → p ∈ l := by
  intro l
  induction l with
  | nil => intro j p h; cases h
  | cons q qs ih =>
    intro j p h
    cases j with
    | zero =>
      simp only [List.getElem?_cons_zero] at h
      cases h
      exact List.mem_cons_self _ _
    | succ j =>
      simp only [List.getElem?_cons_succ] at h
      exact List.mem_cons_of_mem _ (ih j p h)

theorem getVal_nonneg (l : RState) (hl : ∀ p ∈ l, 0 ≤ p.2) (j : Nat) :
    0 ≤ getVal l j := by
  rcases hj : l[j]? with _ | p
  · simp only [getVal, hj]
    exact le_refl 0
  · simp only [getVal, hj]
    exact hl p (getElemQ_mem l j p hj)

theorem setVal_nonneg : ∀ (l : RState) (j : Nat) (v : ℚ),
    (∀ p ∈ l, 0 ≤ p.2) → 0 ≤ v → ∀ p ∈ setVal l j v, 0 ≤ p.2 := by
  intro l
  induction l with
  | nil => intro j v _ _ p hp; cases hp
  | cons q qs ih =>
    intro j v hl hv p hp
    cases j with
    | zero =>
      rcases List.mem_cons.mp hp with h | h
      · subst h; exact hv
      · exact hl p (List.mem_cons_of_mem _ h)
    | succ j =>
      rcases List.mem_cons.mp hp with h | h
      · subst h; exact hl p (List.mem_cons_self _ _)
      · exact ih j v (fun r hr => hl r (List.mem_cons_of_mem _ hr)) hv p h

theorem findEntry_mem (l : RState) (k : String) (p : RItem × ℚ)
    (h : findEntry l k = some p) : p ∈ l :=
  List.mem_of_find?_eq_some h

theorem linkStep_nonneg (it : RItem) (j : Nat) (l : RState) (t : String)
    (hl : ∀ p ∈ l, 0 ≤ p.2) : ∀ p ∈ linkStep it j l t, 0 ≤ p.2 := by
  rcases hf : findEntry l (lastSeg t) with _ | ⟨k2, q⟩
  · simp only [linkStep, hf]
    exact hl
  · simp only [linkStep, hf]
    by_cases hd : it.stamp ≤ k2.stamp
    · rw [if_pos hd]
      by_cases hr : 0 < k2.refs
      · rw [if_pos hr]
        refine setVal_nonneg l j _ hl ?_
        have hq : 0 ≤ q := hl _ (findEntry_mem l _ _ hf)
        have : (0 : ℚ) < (k2.refs : ℚ) := by exact_mod_cast hr
        exact add_nonneg (getVal_nonneg l hl j) (div_nonneg hq (le_of_lt this))
      · rw [if_neg hr]; exact hl
    · rw [if_neg hd]; exact hl

theorem foldl_linkStep_nonneg (it : RItem) (j : Nat) :
    ∀ (ts : List String) (l : RState), (∀ p ∈ l, 0 ≤ p.2) →
      ∀ p ∈ ts.foldl (linkStep it j) l, 0 ≤ p.2 := by
  intro ts
  induction ts with
  | nil => intro l hl; exact hl
  | cons t ts ih =>
    intro l hl
    exact ih (linkStep it j l t) (linkStep_nonneg it j l t hl)

theorem updateAt_nonneg (l0 : RState) (j : Nat) (hl : ∀ p ∈ l0, 0 ≤ p.2) :
    ∀ p ∈ updateAt l0 j, 0 ≤ p.2 := by
  rcases hj : l0[j]? with _ | ⟨it, v⟩
  · simp only [updateAt, hj]
    exact hl
  · simp only [updateAt, hj]
    by_cases hy : it.year = 1900
    · rw [if_pos hy]; exact hl
    · rw [if_neg hy]
      refine foldl_linkStep_nonneg it j it.links (setVal l0 j _) ?_
      refine setVal_nonneg l0 j _ hl ?_
      split <;> norm_num

theorem rankingPass_nonneg (l : RState) (hl : ∀ p ∈ l, 0 ≤ p.2) :
    ∀ p ∈ rankingPass l, 0 ≤ p.2 := by
  unfold rankingPass
  generalize List.range l.length = idxs
  induction idxs generalizing l with
  | nil => exact hl
  | cons j js ih =>
    exact ih (updateAt l j) (updateAt_nonneg l j hl)

theorem iterate_rankingPass_nonneg (s : RState) (hs : ∀ p ∈ s, 0 ≤ p.2) :
    ∀ n, ∀ p ∈ rankingPass^[n] s, 0 ≤ p.2 := by
  intro n
  induction n generalizing s with
  | zero => exact hs
  | succ n ih =>
    rw [Function.iterate_succ_apply]
    exact ih (rankingPass s) (rankingPass_nonneg s hs)

/-- The initial scores are nonnegative (line 525). -/
theorem initRanks_nonneg (its : List RItem) : ∀ p ∈ initRanks its, 0 ≤ p.2 := by
  intro p hp
  unfold initRanks at hp
  rcases List.mem_map.mp hp with ⟨it, _, he⟩
  subst he
  by_cases hy : 1900 < it.year
  · simp only [if_pos hy]
    exact div_nonneg (by norm_num) (Nat.cast_nonneg _)
  · simp only [if_neg hy]
    exact le_refl 0

/-- The score vector produced by the bounded iteration is nonnegative —
    together with the zero scores of sentinel-year items under the age
    damping factor, this discharges the nonnegativity hypothesis of the
    normalization theorem for every engine-produced candidate set. -/
theorem computeRanks_nonneg (its : List RItem) :
    ∀ p ∈ (computeRanks its).1, 0 ≤ p.2 := by
  have h := ranksLoop_result its.length (initRanks its)
  unfold computeRanks
  rw [h]
  exact iterate_rankingPass_nonneg (initRanks its) (initRanks_nonneg its) _

theorem checkLimitNum_pos (limS : String) (lf : Option String) (lfd ag : Bool)
    (r : LimitSpec) (h : checkLimitNum limS lf lfd ag = .ok r) :
    ∃ n, r.1 = some n ∧ 0 < n := by
  unfold checkLimitNum at h
  rcases hx : pyToNatQ limS with _ | n
  · rw [hx] at h; cases h
  · simp only [hx] at h
    by_cases hn : n = 0
    · rw [if_pos hn] at h; cases h
    · rw [if_neg hn] at h
      injection h with h2
      subst h2
      exact ⟨n, rfl, Nat.pos_of_ne_zero hn⟩

/-
Claim theorems.
-/

/-- Claim C1, counterexample: two stacked non-negated predicates on
    fields "a" and "b"; the evaluation makes the field-"a" predicate true
    (so at least one predicate across the fields evaluates true after its
    negation flag), yet the item is not yielded — the pipeline does not
    OR-combine stacked predicates. -/
theorem c1_or_combination_cex :
    (∃ p ∈ stackedFilters, ∃ ft ∈ p.2,
        (if filtNeg ft then !evalbFieldA p.1 ft else evalbFieldA p.1 ft) = true) ∧
    itemYielded evalbFieldA stackedFilters false false = false := by
  decide

/-- Claim C1, amended: stacked predicates are AND-combined — the item
    loop of ZoteroCLI._filter yields an item iff EVERY predicate across
    every field evaluates true after applying its negation flag (and the
    item is not ignore-marked, unless forced): `pass_item` is a skip flag
    set by `[not b, b][negate]`, so one failing adjusted predicate
    excludes the item. -/
theorem c1_and_combination (evalb : String → Filt → Bool)
    (fl : List (String × List Filt)) (ignoreMarked force : Bool) :
    itemYielded evalb fl ignoreMarked force = true ↔
      ((∀ p ∈ fl, ∀ ft ∈ p.2,
          (if filtNeg ft then !evalb p.1 ft else evalb p.1 ft) = true) ∧
        (ignoreMarked = false ∨ force = true)) := by
  have hnb : ∀ (n b : Bool),
      ((if n then b else !b) = false) ↔ ((if n then !b else b) = true) := by decide
  simp only [itemYielded, Bool.and_eq_true, Bool.not_eq_true', Bool.or_eq_true,
    Bool.not_eq_true, passItemSkip, List.any_eq_false, skipTrigger]
  constructor
  · rintro ⟨h1, h2⟩
    refine ⟨?_, h2⟩
    intro p hp ft hft
    exact (hnb (filtNeg ft) (evalb p.1 ft)).mp (h1 p hp ft hft)
  · rintro ⟨h1, h2⟩
    refine ⟨?_, h2⟩
    intro p hp ft hft
    exact (hnb (filtNeg ft) (evalb p.1 ft)).mpr (h1 p hp ft hft)

theorem c1_and_combination_witness :
    itemYielded evalbFieldA [("a", [Filt.rxSearch false "p"])] false false = true :=
  (c1_and_combination evalbFieldA [("a", [Filt.rxSearch false "p"])] false false).mpr
    (by decide)

/-- Claim C2, counterexample: item dated 2020 with relation targets
    A (resolvable, dated 2021), B (unresolvable) and C (resolvable,
    dated 2019).  The walk returns (1, 0): it does not raise, but C is
    never counted because the KeyError for B aborts the loop — whereas
    removing the unresolved key yields (1, 1).  The counts are NOT those
    obtained with the unresolved keys removed from the list. -/
theorem c2_unresolved_key_cex :
    citRef citObjects dpSimple searchNever none (some "2020") ["A", "B", "C"] = .ok (1, 0) ∧
    citRef citObjects dpSimple searchNever none (some "2020") ["A", "C"] = .ok (1, 1) ∧
    ((1, 0) : Nat × Nat) ≠ (1, 1) := by
  decide

/-- Claim C2, amended: an unresolvable relation key does not raise, but
    it stops the relation walk (the KeyError is caught outside the loop):
    the computed citations/references counts are exactly those of the
    longest prefix of relation targets whose keys all resolve in the
    Object Index; targets after the first unresolved key are ignored even
    when resolvable. -/
theorem c2_unresolved_prefix_stop (O : List (String × ZObj)) (dp : String → Option PDate)
    (search : String → String → Bool) (cf : Option (List Filt)) (idate : Option String)
    (links : List String) (c r : Nat) :
    citRefLoop O dp search cf idate links c r =
      citRefLoop O dp search cf idate
        (links.takeWhile (fun l => (lookupObj O (lastSeg l)).isSome)) c r := by
  induction links generalizing c r with
  | nil => rfl
  | cons l ls ih =>
    cases hx : lookupObj O (lastSeg l) with
    | none =>
      rw [List.takeWhile_cons_of_neg (by simp [hx])]
      simp only [citRefLoop, citLink, hx]
    | some k =>
      rw [List.takeWhile_cons_of_pos (by simp [hx])]
      simp only [citRefLoop]
      cases hcl : citLink O dp search cf idate l c r with
      | error e => rfl
      | ok v =>
        cases v with
        | none => rfl
        | some p => exact ih p.1 p.2

/-- Claim C3 (code bug): for every non-empty date string the external
    parser rejects, ZoteroCLI.date raises NameError (the `@staticmethod`
    body dereferences the unbound name `self` to log the warning) instead
    of warning and returning the 1900-01-01 sentinel that the
    immediately following line would return. -/
theorem c3_unparsable_date_raises (dp : String → Option PDate) (s : String)
    (hne : s ≠ "") (hfail : dp s = none) :
    zcliDate dp s = .error .nameError := by
  simp only [zcliDate, if_neg hne, hfail]

theorem c3_unparsable_date_raises_witness :
    zcliDate (fun _ => none) "not-a-date" = .error .nameError :=
  c3_unparsable_date_raises (fun _ => none) "not-a-date" (by decide) rfl

/-- Claim C4 (confirmed): for every candidate score vector (engine
    scores are nonnegative — see computeRanks_nonneg), after the final
    normalization every output rank lies in [0, 1]; whenever some item
    has a positive pre-normalization score, some output rank (the
    maximum-ranked item's) is exactly 1; and when the maximum
    pre-normalization score is zero, every output rank is 0. -/
theorem c4_normalization_bounds (l : List (String × ℚ))
    (hnn : ∀ p ∈ l, 0 ≤ p.2) :
    (∀ q ∈ normalizeRanks l, 0 ≤ q.2 ∧ q.2 ≤ 1) ∧
    ((∃ p ∈ l, 0 < p.2) → ∃ q ∈ normalizeRanks l, q.2 = 1) ∧
    (maxRank l = 0 → ∀ q ∈ normalizeRanks l, q.2 = 0) := by
  by_cases hm : maxRank l = 0
  · refine ⟨?_, ?_, ?_⟩
    · intro q hq
      simp only [normalizeRanks, if_pos hm] at hq
      rcases List.mem_map.mp hq with ⟨p, _, he⟩
      subst he
      exact ⟨le_refl 0, by norm_num⟩
    · rintro ⟨p, hp, hpos⟩
      exact absurd (lt_of_lt_of_le hpos (le_maxRank l p hp)) (by rw [hm]; exact lt_irrefl 0)
    · intro _ q hq
      simp only [normalizeRanks, if_pos hm] at hq
      rcases List.mem_map.mp hq with ⟨p, _, he⟩
      subst he
      rfl
  · have hne : l ≠ [] := by
      intro h
      exact hm (by rw [h]; rfl)
    have hmax0 : 0 ≤ maxRank l := by
      rcases maxRank_attained l hne with ⟨p, hp, he⟩
      rw [he]
      exact hnn p hp
    have hmaxpos : 0 < maxRank l := lt_of_le_of_ne hmax0 (fun h => hm h.symm)
    refine ⟨?_, ?_, ?_⟩
    · intro q hq
      simp only [normalizeRanks, if_neg hm] at hq
      rcases List.mem_map.mp hq with ⟨p, hp, he⟩
      subst he
      exact ⟨div_nonneg (hnn p hp) hmax0,
        (div_le_one hmaxpos).mpr (le_maxRank l p hp)⟩
    · intro _
      rcases maxRank_attained l hne with ⟨p, hp, he⟩
      refine ⟨(p.1, p.2 / maxRank l), ?_, ?_⟩
      · simp only [normalizeRanks, if_neg hm]
        exact List.mem_map.mpr ⟨p, hp, rfl⟩
      · show p.2 / maxRank l = 1
        rw [← he]
        exact div_self hm
    · intro h
      exact absurd h hm

theorem c4_normalization_bounds_witness :
    (∀ q ∈ normalizeRanks [("a", (0 : ℚ)), ("b", 2)], 0 ≤ q.2 ∧ q.2 ≤ 1) ∧
    (∃ q ∈ normalizeRanks [("a", (0 : ℚ)), ("b", 2)], q.2 = 1) := by
  have h := c4_normalization_bounds [("a", (0 : ℚ)), ("b", 2)] (by
    intro p hp
    rcases List.mem_cons.mp hp with h1 | h1
    · subst h1; norm_num
    · rcases List.mem_cons.mp h1 with h2 | h2
      · subst h2; norm_num
      · cases h2)
  refine ⟨h.1, h.2.1 ⟨("b", 2), ?_, by norm_num⟩⟩
  exact List.mem_cons_of_mem _ (List.mem_cons_self _ _)

/-- Claim C5 (confirmed): the ranking iteration over a candidate set
    always terminates within at most N full passes (N = number of
    candidate items); it stops early exactly when the score vector after
    a pass is identical to the vector after the previous pass (the
    result is then a fixpoint of the pass, and before the stopping pass
    no two consecutive vectors were equal); and the returned vector is
    always the last computed one (the count-fold iterate of the pass),
    with no error when the bound is reached without convergence. -/
theorem c5_rank_iteration_bounds (its : List RItem) :
    (computeRanks its).2 ≤ its.length ∧
    (computeRanks its).1 = rankingPass^[(computeRanks its).2] (initRanks its) ∧
    ((computeRanks its).2 < its.length →
      rankingPass (computeRanks its).1 = (computeRanks its).1) ∧
    (∀ m, m + 1 < (computeRanks its).2 →
      rankingPass^[m+1] (initRanks its) ≠ rankingPass^[m] (initRanks its)) := by
  refine ⟨ranksLoop_count_le _ _, ranksLoop_result _ _, ?_, ?_⟩
  · intro h
    exact ranksLoop_early_fix _ _ h
  · intro m h
    exact ranksLoop_no_early _ _ m h

theorem c5_rank_iteration_bounds_witness :
    (computeRanks [witnessItemA, witnessItemB]).2 ≤ 2 ∧
    rankingPass (computeRanks [witnessItemA, witnessItemB]).1 =
      (computeRanks [witnessItemA, witnessItemB]).1 :=
  ⟨(c5_rank_iteration_bounds [witnessItemA, witnessItemB]).1,
   (c5_rank_iteration_bounds [witnessItemA, witnessItemB]).2.2.1 (by decide)⟩

/-- Claim C6, counterexample: in the limit specification, a trailing
    `rank^K` token is NOT interpreted — `_expand_limit` special-cases
    only `rank*`, so `rank^2:5` comes back with the literal limiting
    field `rank^2` and the age flag untouched (no damping order is set
    anywhere by the limit path; the `rank^K` damping-order token is only
    recognized in the requested FIELDS list, as the second conjunct
    shows). -/
theorem c6_rank_hat_cex :
    expandLimit (some "rank^2:5") (some "title") false true =
      .ok (some 5, some "rank^2", false, true) ∧
    (some "rank^2" : Option String) ≠ some "rank" ∧
    rankTokenScan ["rank^2"] = (true, 2, ["rank"]) := by
  decide

/-- Claim C6, amended: in a limit specification `[([<|>])field:]N` a
    leading `<`/`>` sets ascending/descending order for the limiting
    step, the field overrides the sort key, a trailing `rank*` token maps
    the field to `rank` with age damping disabled, and a non-positive-
    integer N raises the bad-limit input error (every successful parse
    carries a positive limit); but a trailing `rank^K` token is not
    interpreted — it is kept verbatim as the limiting field name. -/
theorem c6_expand_limit_amended :
    expandLimit (some "<year:10") (some "title") true true =
      .ok (some 10, some "year", false, true) ∧
    expandLimit (some ">year:10") (some "title") false true =
      .ok (some 10, some "year", true, true) ∧
    expandLimit (some "rank*:5") (some "title") false true =
      .ok (some 5, some "rank", false, false) ∧
    expandLimit (some "rank^2:5") (some "title") false true =
      .ok (some 5, some "rank^2", false, true) ∧
    expandLimit (some "title:0") (some "x") false true = .error .badLimit ∧
    expandLimit (some "abc") (some "x") false true = .error .badLimit ∧
    expandLimit (some "-3") (some "x") false true = .error .badLimit ∧
    (∀ (s : String) (sortf : Option String) (desc age : Bool) (r : LimitSpec),
        expandLimit (some s) sortf desc age = .ok r → ∃ n, r.1 = some n ∧ 0 < n) := by
  refine ⟨by decide, by decide, by decide, by decide, by decide, by decide, by decide, ?_⟩
  intro s sortf desc age r h
  unfold expandLimit at h
  rcases hsp : pySplitChar ':' s with _ | ⟨a, tl⟩
  · simp only [hsp] at h
    exact checkLimitNum_pos _ _ _ _ _ h
  · cases tl with
    | nil =>
      simp only [hsp] at h
      exact checkLimitNum_pos _ _ _ _ _ h
    | cons b tl2 =>
      cases tl2 with
      | nil =>
        simp only [hsp] at h
        rcases had : (pyStrip a).data with _ | ⟨c, rest⟩ <;> simp only [had] at h
        · cases h
        · exact checkLimitNum_pos _ _ _ _ _ h
      | cons x xs =>
        simp only [hsp] at h
        exact checkLimitNum_pos _ _ _ _ _ h

theorem c6_expand_limit_amended_witness :
    ∃ n, ((some 7, some "x", false, true) : LimitSpec).1 = some n ∧ 0 < n :=
  c6_expand_limit_amended.2.2.2.2.2.2.2 "7" (some "x") false true
    ((some 7, some "x", false, true) : LimitSpec) (by decide)

theorem zsortKey_year_int (dp : String → Option PDate) (pf : String → Option ℚ)
    (y : Int) : zsortKey dp pf (.i y) "year" = .ok (SKey.num (y : ℚ)) := by
  unfold zsortKey
  rw [if_neg (by decide), if_pos (by decide), if_neg (by simp)]

theorem zsortKey_year_dash (dp : String → Option PDate) (pf : String → Option ℚ) :
    zsortKey dp pf (.s "-") "year" = .ok (SKey.num (-1)) := by
  unfold zsortKey
  rw [if_neg (by decide), if_pos (by decide), if_pos (by simp)]

/-- Claim C7, counterexample: an item with no date derives year 1900 and
    formats it as `-`, but its canonical comparison key for `year` is
    1900, not -1 — the raw integer 1900 is what the sorting step feeds to
    ZoteroCLI.sort, and only the string placeholder `-` maps to -1.  An
    item dated 1850 gets key 1850 < 1900, so the dateless item does NOT
    sort before every dated item in ascending order. -/
theorem c7_year_sentinel_cex :
    deriveYear dpSimple none = .ok 1900 ∧
    formatScalar (.i 1900) "year" = "-" ∧
    zsortKey dpSimple pfNone (.i 1900) "year" = .ok (SKey.num 1900) ∧
    zsortKey dpSimple pfNone (.i 1900) "year" ≠ .ok (SKey.num (-1)) ∧
    zsortKey dpSimple pfNone (.i 1850) "year" = .ok (SKey.num 1850) ∧
    (1850 : ℚ) < 1900 := by
  refine ⟨by decide, by decide, by decide, by decide, by decide, by norm_num⟩

/-- Claim C7, amended: an item with no date formats `year` as `-`, but
    its canonical comparison key equals the stored sentinel year 1900
    (the -1 key arises only for the missing-value placeholder string
    `-`), so in ascending order by year it sorts before every item dated
    after 1900 and after every item dated before 1900. -/
theorem c7_year_sentinel_amended (dp : String → Option PDate) (pf : String → Option ℚ) :
    deriveYear dp none = .ok 1900 ∧
    formatScalar (.i 1900) "year" = "-" ∧
    (∀ y : Int, zsortKey dp pf (.i y) "year" = .ok (SKey.num (y : ℚ))) ∧
    zsortKey dp pf (.s "-") "year" = .ok (SKey.num (-1)) ∧
    (∀ y : Int, 1900 < y →
      ∃ qy : ℚ, zsortKey dp pf (.i y) "year" = .ok (SKey.num qy) ∧ (1900 : ℚ) < qy) ∧
    (∀ y : Int, y < 1900 →
      ∃ qy : ℚ, zsortKey dp pf (.i y) "year" = .ok (SKey.num qy) ∧ qy < (1900 : ℚ)) := by
  refine ⟨rfl, by decide, zsortKey_year_int dp pf, zsortKey_year_dash dp pf, ?_, ?_⟩
  · intro y hy
    exact ⟨(y : ℚ), zsortKey_year_int dp pf y, by exact_mod_cast hy⟩
  · intro y hy
    exact ⟨(y : ℚ), zsortKey_year_int dp pf y, by exact_mod_cast hy⟩

theorem c7_year_sentinel_amended_witness :
    (∃ qy : ℚ, zsortKey dpSimple pfNone (.i 2020) "year" = .ok (SKey.num qy) ∧
        (1900 : ℚ) < qy) ∧
    (∃ qy : ℚ, zsortKey dpSimple pfNone (.i 1850) "year" = .ok (SKey.num qy) ∧
        qy < (1900 : ℚ)) :=
  ⟨(c7_year_sentinel_amended dpSimple pfNone).2.2.2.2.1 2020 (by decide),
   (c7_year_sentinel_amended dpSimple pfNone).2.2.2.2.2 1850 (by decide)⟩

/-- Claim C8 (confirmed): numPages is parsed from the selected pages
    string via `(\d+)(?:\s*[\-–]+\s*(\d+))?$`; a full match yields the
    absolute difference of the two numbers (a single number N matches
    with the second group absent, defaulting the end to 0 and giving N —
    pages "7" gives 7 without error, "10-15" gives 5), the sentinel -1
    replaces a zero difference, and a failed match yields -1 with a
    logged warning (an absent/empty source is defaulted to "0" and gives
    -1 with no warning). -/
theorem c8_numpages :
    numPagesOf "7" = (7, false) ∧
    numPagesOf "10-15" = (5, false) ∧
    numPagesOf "5-5" = (-1, false) ∧
    numPagesOf "vii" = (-1, true) ∧
    pagesSource none none = "0" ∧
    numPagesOf "0" = (-1, false) ∧
    (∀ (p : String) (a : Nat), pagesParse p = some (a, none) →
      numPagesOf p = (if a = 0 then -1 else (a : Int), false)) ∧
    (∀ (p : String) (a b : Nat), pagesParse p = some (a, some b) →
      numPagesOf p =
        (if ((a : Int) - (b : Int)).natAbs = 0 then -1
         else ((((a : Int) - (b : Int)).natAbs : Nat) : Int), false)) ∧
    (∀ p : String, pagesParse p = none → numPagesOf p = (-1, true)) := by
  refine ⟨by decide, by decide, by decide, by decide, by decide, by decide, ?_, ?_, ?_⟩
  · intro p a h
    simp only [numPagesOf, h, Option.getD_none, Nat.cast_zero, sub_zero, Int.natAbs_ofNat]
  · intro p a b h
    simp only [numPagesOf, h, Option.getD_some]
  · intro p h
    simp only [numPagesOf, h]

theorem c8_numpages_witness :
    numPagesOf "10-15" =
      (if (((10 : Int) - (15 : Int)).natAbs = 0) then -1
       else (((((10 : Int) - (15 : Int)).natAbs : Nat)) : Int), false) :=
  c8_numpages.2.2.2.2.2.2.2.1 "10-15" 10 15 (by decide)

/-- Claim C9, counterexample: the same unknown requested field
    "badfield" is silently accepted when the (last) filter expression is
    `title:-` (its value part `-` disables the whole field validation via
    the leftover loop variable `regex`), but rejected with the
    bad-field-name error when the filter is `title:x`.  The hard input
    error is therefore NOT raised regardless of which other filters are
    present. -/
theorem c9_field_validation_cex :
    filterPhase dpSimple ["title"] [] ["badfield"] ["title:-"] =
      .ok [("title", [Filt.emptiness false false])] ∧
    filterPhase dpSimple ["title"] [] ["badfield"] ["title:x"] =
      .error (.badFieldName "badfield" ["title"]) := by
  decide

/-- Claim C9, amended: a requested or filtered field outside the field
    catalog aborts the query with the bad-field-name input error (whose
    warning lists the valid fields, canonically sorted) — UNLESS the
    value part of the last parsed filter expression is exactly `-`, in
    which case field validation is skipped entirely and unknown names
    pass through. -/
theorem c9_field_validation_amended (vf af : List String) (r : String) :
    (r = "-" → validateFields vf (some r) af = .ok ()) ∧
    (r ≠ "-" → (validateFields vf (some r) af = .ok () ↔ ∀ f ∈ af, f ∈ vf)) ∧
    (r ≠ "-" → (∃ f ∈ af, f ∉ vf) →
      ∃ g ∈ af, g ∉ vf ∧
        validateFields vf (some r) af = .error (.badFieldName g (sortedLower vf))) := by
  induction af with
  | nil =>
    refine ⟨fun _ => rfl, fun _ => ?_, fun _ hex => ?_⟩
    · constructor
      · intro _ f hf
        cases hf
      · intro _
        rfl
    · rcases hex with ⟨f, hf, _⟩
      cases hf
  | cons f fs ih =>
    by_cases hf : f ∈ vf
    · have hred : validateFields vf (some r) (f :: fs) = validateFields vf (some r) fs := by
        simp only [validateFields, if_pos hf]
      refine ⟨?_, ?_, ?_⟩
      · intro hr
        rw [hred]
        exact ih.1 hr
      · intro hr
        rw [hred, ih.2.1 hr]
        constructor
        · intro h g hg
          rcases List.mem_cons.mp hg with h1 | h1
          · subst h1
            exact hf
          · exact h g h1
        · intro h g hg
          exact h g (List.mem_cons_of_mem _ hg)
      · intro hr hex
        rcases hex with ⟨g, hg, hgn⟩
        rcases List.mem_cons.mp hg with h1 | h1
        · subst h1
          exact absurd hf hgn
        · rcases ih.2.2 hr ⟨g, h1, hgn⟩ with ⟨g2, hg2, hg2n, he⟩
          exact ⟨g2, List.mem_cons_of_mem _ hg2, hg2n, by rw [hred]; exact he⟩
    · have hred : validateFields vf (some r) (f :: fs) =
          (if r = "-" then validateFields vf (some r) fs
           else .error (.badFieldName f (sortedLower vf))) := by
        simp only [validateFields, if_neg hf]
      refine ⟨?_, ?_, ?_⟩
      · intro hr
        rw [hred, if_pos hr]
        exact ih.1 hr
      · intro hr
        rw [hred, if_neg hr]
        constructor
        · intro h
          cases h
        · intro h
          exact absurd (h f (List.mem_cons_self f fs)) hf
      · intro hr _
        exact ⟨f, List.mem_cons_self f fs, hf, by rw [hred, if_neg hr]⟩

theorem c9_field_validation_amended_witness :
    validateFields ["title"] (some "-") ["badfield"] = .ok () ∧
    (validateFields ["title"] (some "x") ["badfield"] = .ok () ↔
      ∀ f ∈ ["badfield"], f ∈ ["title"]) :=
  ⟨(c9_field_validation_amended ["title"] ["badfield"] "-").1 rfl,
   (c9_field_validation_amended ["title"] ["badfield"] "x").2.1 (by decide)⟩

/-- Claim C10, counterexample: an emptiness collections filter does
    compile to the 2-tuple predicate, but the citations/references
    computation does NOT raise on every item that has relations: an item
    whose (first) relation key does not resolve takes the caught-KeyError
    path before the tuple unpacking is reached, returns counts (0, 0),
    and the query proceeds — so the combination can return a result
    set. -/
theorem c10_collections_emptiness_cex :
    compileFilters dpSimple [] ["collections:-"] =
      .ok ([("collections", [Filt.emptiness false false])], some "-") ∧
    citRef citObjects dpSimple searchNever (some [Filt.emptiness false false])
      (some "2020") ["http://zotero.org/local/BAD"] = .ok (0, 0) := by
  decide

/-- Claim C10, amended: with an emptiness (`-`/`<empty>`) collections
    filter active — compiled as a 2-tuple — the citations/references
    computation unpacks every collections predicate as a 3-tuple and
    raises ValueError on the first relation link whose key resolves in
    the Object Index; when the first link's key does not resolve, the
    caught KeyError ends the walk with counts (0, 0) and no error
    instead. -/
theorem c10_collections_emptiness_amended :
    (∀ (O : List (String × ZObj)) (dp : String → Option PDate)
        (search : String → String → Bool) (neg isYear : Bool)
        (idate : Option String) (l : String) (ls : List String) (k : ZObj),
        lookupObj O (lastSeg l) = some k →
        citRef O dp search (some [Filt.emptiness neg isYear]) idate (l :: ls) =
          .error .valueError) ∧
    (∀ (O : List (String × ZObj)) (dp : String → Option PDate)
        (search : String → String → Bool) (cf : Option (List Filt))
        (idate : Option String) (l : String) (ls : List String),
        lookupObj O (lastSeg l) = none →
        citRef O dp search cf idate (l :: ls) = .ok (0, 0)) := by
  constructor
  · intro O dp search neg isYear idate l ls k hk
    simp only [citRef, citRefLoop, citLink, hk, collGate]
  · intro O dp search cf idate l ls hk
    simp only [citRef, citRefLoop, citLink, hk]

theorem c10_collections_emptiness_amended_witness :
    citRef citObjects dpSimple searchNever (some [Filt.emptiness false false])
      (some "2020") ["x/A", "C"] = .error .valueError ∧
    citRef citObjects dpSimple searchNever (some [Filt.emptiness false false])
      (some "2020") ["x/BAD", "A"] = .ok (0, 0) :=
  ⟨c10_collections_emptiness_amended.1 citObjects dpSimple searchNever false false
      (some "2020") "x/A" ["C"] ⟨"", some "2021", []⟩ (by decide),
   c10_collections_emptiness_amended.2 citObjects dpSimple searchNever
      (some [Filt.emptiness false false]) (some "2020") "x/BAD" ["A"] (by decide)⟩
